import Mathlib

/-!
Verification of the sparrow strip-packing core against its specification.

The Rust sources are shallowly embedded: `f32` scalars are idealised as an
arbitrary linear ordered field (instantiated at `ℝ` for the mirror algebra,
where the constant `PI` matters, and at `ℚ` for concrete witnesses), ignoring
rounding, overflow and NaN.  External collaborators (the collision-detection
engine, the hazard collector, serde parsing, the LBF builder and the search
phases) are abstracted as function parameters; the code under verification is
the composition logic written in the repository itself.
-/

namespace Sparrow

/-- A planar rigid transformation (jagua_rs `DTransformation`): a rotation and
a translation `(x, y)`.  `DTransformation::new(rotation, (x, y))` becomes the
anonymous constructor in the same field order. -/
structure DTransformation (α : Type) where
  rotation : α
  x : α
  y : α
  deriving DecidableEq

/-- `mirror_transformation` from `src/symmetric.rs`.  The source uses the `f32`
constant `std::f32::consts::PI`; here the constant is passed as the parameter
`pi` so the definition lives over any field, and the claims instantiate it at
`Real.pi`.  The body follows the source: `mirror_x = 2.0 * axis_x - x`,
`mirror_r = PI - r`, `y` unchanged. -/
def mirror_transformation {α : Type} [Field α] (pi : α)
    (dt : DTransformation α) (axis_x : α) : DTransformation α :=
  let x := dt.x
  let y := dt.y
  let r := dt.rotation
  let mirror_x := 2 * axis_x - x
  let mirror_r := pi - r
  ⟨mirror_r, mirror_x, y⟩

/-- The three-valued result type of one sample evaluation (`SampleEval` from
`src/eval/sample_eval.rs`): `Clear { loss }`, `Collision { loss }` or
`Invalid`. -/
inductive SampleEval (α : Type) where
  | Clear (loss : α)
  | Collision (loss : α)
  | Invalid
  deriving DecidableEq

/-- An `f32` loss bound that may be `f32::INFINITY`: either a finite field
value or positive infinity. -/
inductive ExtLoss (α : Type) where
  | fin (val : α)
  | inf
  deriving DecidableEq

/-- Subtraction of a finite value from a possibly infinite bound, as `f32`
does it: `∞ - v = ∞`, finite stays finite. -/
def ExtLoss.sub {α : Type} [LinearOrderedField α] : ExtLoss α → α → ExtLoss α
  | .fin q, v => .fin (q - v)
  | .inf, _ => .inf

/-- The `f32` comparison `b <= 0.0` on a possibly infinite bound: false for
`∞`. -/
def ExtLoss.nonpos {α : Type} [LinearOrderedField α] : ExtLoss α → Bool
  | .fin q => decide (q ≤ 0)
  | .inf => false

/-- The comparison `b ≤ v` between a possibly infinite bound and a finite
value: false for `b = ∞`. -/
def ExtLoss.le_val {α : Type} [LinearOrderedField α] : ExtLoss α → α → Bool
  | .fin q, v => decide (q ≤ v)
  | .inf, _ => false

/-- The observable state of the hazard collector after one CDE query
(`collect_poly_collisions_in_detector_custom` followed by the three reads the
evaluator performs): the value of `early_terminate(shape)`, the value of
`is_empty()`, and the value of `loss(shape)`. -/
structure QueryOutcome (α : Type) where
  early_term : Bool
  is_empty : Bool
  loss : α
  deriving DecidableEq

/-- Ghost record of one performed CDE query: the transform it was issued at,
the loss bound installed into the collector by `reload`, and the resulting
collector state. -/
structure PerformedQuery (α : Type) where
  dt : DTransformation α
  bound : ExtLoss α
  outcome : QueryOutcome α
  deriving DecidableEq

/-- The mutable state of `SeparationEvaluator` that the embedded
`evaluate_sample` reads or writes: the evaluation counter and the optional
symmetry axis.  The layout, item, collector and shape buffers are abstracted
into the `query` function parameter of `evaluate_sample`. -/
structure SeparationEvaluator (α : Type) where
  n_evals : ℕ
  symmetric_axis_x : Option α
  deriving DecidableEq

/-- Output of the embedded `evaluate_sample`: the returned `SampleEval`, the
ghost list of performed CDE queries (in order), and the updated evaluator
state. -/
structure EvalOutput (α : Type) where
  result : SampleEval α
  queries : List (PerformedQuery α)
  evaluator : SeparationEvaluator α
  deriving DecidableEq

/-- The `loss_bound` computed from the optional upper bound at the top of
`evaluate_sample` (src/eval/sep_evaluator.rs lines 63 to 67):
`Some(Collision{loss}) => loss`, `Some(Clear{..}) => 0.0`, anything else
(`None` or `Some(Invalid)`) `=> f32::INFINITY`. -/
def loss_bound_of {α : Type} [LinearOrderedField α]
    (upper_bound : Option (SampleEval α)) : ExtLoss α :=
  match upper_bound with
  | some (SampleEval.Collision loss) => ExtLoss.fin loss
  | some (SampleEval.Clear _) => ExtLoss.fin 0
  | _ => ExtLoss.inf

/-- `SeparationEvaluator::evaluate_sample` from `src/eval/sep_evaluator.rs`.

The CDE together with the layout and the collision tracker is abstracted as
the deterministic function `query`, mapping the transform a query is issued at
and the bound installed by `collector.reload` to the observable collector
state after `collect_poly_collisions_in_detector_custom`; `pi` stands for the
`f32` constant `PI` used by `mirror_transformation`.  Besides the returned
`SampleEval` the embedding also returns, as ghost data, the list of CDE
queries performed and the updated evaluator state (`n_evals` is incremented
first, as in the source). -/
def evaluate_sample {α : Type} [LinearOrderedField α] (pi : α)
    (query : DTransformation α → ExtLoss α → QueryOutcome α)
    (ev : SeparationEvaluator α) (dt : DTransformation α)
    (upper_bound : Option (SampleEval α)) : EvalOutput α :=
  let ev' : SeparationEvaluator α := { ev with n_evals := ev.n_evals + 1 }
  let loss_bound := loss_bound_of upper_bound
  let q1 := query dt loss_bound
  let original_result :=
    if q1.early_term then SampleEval.Invalid
    else if q1.is_empty then SampleEval.Clear 0
    else SampleEval.Collision q1.loss
  match ev.symmetric_axis_x with
  | some axis_x =>
    match original_result with
    | SampleEval.Invalid => ⟨SampleEval.Invalid, [⟨dt, loss_bound, q1⟩], ev'⟩
    | SampleEval.Clear orig_loss | SampleEval.Collision orig_loss =>
      let mirror_dt := mirror_transformation pi dt axis_x
      let mirror_loss_bound := loss_bound.sub orig_loss
      if mirror_loss_bound.nonpos then
        ⟨SampleEval.Collision orig_loss, [⟨dt, loss_bound, q1⟩], ev'⟩
      else
        let q2 := query mirror_dt mirror_loss_bound
        let res :=
          if q2.early_term then SampleEval.Invalid
          else if q2.is_empty then
            if orig_loss = 0 then SampleEval.Clear 0
            else SampleEval.Collision orig_loss
          else SampleEval.Collision (orig_loss + q2.loss)
        ⟨res, [⟨dt, loss_bound, q1⟩, ⟨mirror_dt, mirror_loss_bound, q2⟩], ev'⟩
  | none => ⟨original_result, [⟨dt, loss_bound, q1⟩], ev'⟩

/-- The primary-query classification (src/eval/sep_evaluator.rs lines 74 to
82): `early_terminate ⇒ Invalid`, else `is_empty ⇒ Clear{0}`, else
`Collision{loss}`. -/
def classify {α : Type} [LinearOrderedField α] (q : QueryOutcome α) : SampleEval α :=
  if q.early_term then SampleEval.Invalid
  else if q.is_empty then SampleEval.Clear 0
  else SampleEval.Collision q.loss

/-- The loss `L₁` carried by the primary result when it is not `Invalid`:
`0` for `Clear` (the collector was empty), `loss` for `Collision`. -/
def primary_loss {α : Type} [LinearOrderedField α] (q : QueryOutcome α) : α :=
  if q.is_empty then 0 else q.loss

/-- Modelled from the spec: the hazard collector (`SpecializedHazardCollector`
in `src/eval/specialized_jaguars_pipeline.rs`, a file that is not among the
sources under verification) observed through one CDE query.  Per the spec,
`loss(S) = Σ_{h ∈ H} w(h) · overlap_proxy(S, h)` with strictly positive
weights and a proxy that is `> 0` for any actual overlap, so the loss is
nonnegative, zero exactly on an empty collection and strictly positive
otherwise; and `early_terminate` returns true exactly when the current loss
has reached the installed bound. -/
structure CollectorSpec {α : Type} [LinearOrderedField α]
    (query : DTransformation α → ExtLoss α → QueryOutcome α) : Prop where
  loss_nonneg : ∀ dt b, 0 ≤ (query dt b).loss
  loss_pos : ∀ dt b, (query dt b).is_empty = false → 0 < (query dt b).loss
  loss_empty : ∀ dt b, (query dt b).is_empty = true → (query dt b).loss = 0
  early_iff : ∀ dt b, (query dt b).early_term = ExtLoss.le_val b (query dt b).loss

/-- The strip-packing problem state, reduced to the one field the axis
computation reads: `SPProblem::strip_width` (jagua_rs, external to the sources
under verification). -/
structure SPProblem (α : Type) where
  strip_width : α
  deriving DecidableEq

/-- The arguments the driver hands to `Separator::new_with_symmetric`: the
problem the separator starts from and the optional symmetry axis. -/
structure SeparatorArgs (α : Type) where
  prob : SPProblem α
  axis : Option α
  deriving DecidableEq

/-- `optimize_with_symmetric` from `src/optimizer/mod.rs`, reduced to the data
flow of the symmetry axis.  The LBF construction (`LBFBuilder`), the warm
start restore (`SPProblem::restore`) and the exploration phase live outside
the sources under verification and are abstracted as the parameters
`construct_lbf`, `restore` and `explore`; `explore` maps the exploration
separator's arguments to the problem state it leaves behind, which is what the
compression separator is constructed from; `σ` is the type of initial
solutions.  Returned are the arguments given to the exploration separator and
to the compression separator. -/
def optimize_with_symmetric {α : Type} [LinearOrderedField α] {σ : Type}
    (construct_lbf : Unit → SPProblem α) (restore : σ → SPProblem α)
    (explore : SeparatorArgs α → SPProblem α)
    (initial_solution : Option σ) (symmetric : Bool) :
    SeparatorArgs α × SeparatorArgs α :=
  let start_prob := match initial_solution with
    | none => construct_lbf ()
    | some init_sol => restore init_sol
  let symmetric_axis_x :=
    if symmetric then some (start_prob.strip_width / 2) else none
  let expl_args : SeparatorArgs α := ⟨start_prob, symmetric_axis_x⟩
  let cmpr_args : SeparatorArgs α := ⟨explore expl_args, symmetric_axis_x⟩
  (expl_args, cmpr_args)

/-- The `{instance, solution}` serde target (`ExtSPOutput` from
`src/util/io.rs`), over abstract instance and solution types; the Rust field
`instance` is a Lean keyword, hence `instance_`. -/
structure ExtSPOutput (ι σ : Type) where
  instance_ : ι
  solution : σ
  deriving DecidableEq

/-- The error cases of `read_spp_input`, one per `context` message attached in
the source: the file could not be read, or neither parse succeeded. -/
inductive ReadSppError where
  | couldNotReadInputFile
  | couldNotParseInstance
  deriving DecidableEq

/-- `read_spp_input` from `src/util/io.rs`.  File-system access and serde
parsing are abstracted as parameters: `read_to_string` yields the file
contents or fails, `parse_output` and `parse_instance` are the two serde
parse attempts, tried in that order exactly as in the source. -/
def read_spp_input {ι σ π : Type}
    (read_to_string : π → Option String)
    (parse_output : String → Option (ExtSPOutput ι σ))
    (parse_instance : String → Option ι)
    (path : π) : Except ReadSppError (ι × Option σ) :=
  match read_to_string path with
  | none => Except.error ReadSppError.couldNotReadInputFile
  | some input_str =>
    match parse_output input_str with
    | some ext_output => Except.ok (ext_output.instance_, some ext_output.solution)
    | none =>
      match parse_instance input_str with
      | some ext_instance => Except.ok (ext_instance, none)
      | none => Except.error ReadSppError.couldNotParseInstance

/-- A concrete collector model used by witnesses, over `ℚ`: a single hazard is
hit exactly when the queried transform has nonzero x-coordinate, contributing
loss `1`. -/
def wit_loss (dt : DTransformation ℚ) : ℚ :=
  if dt.x = 0 then 0 else 1

/-- A concrete query function used by witnesses, consistent with
`CollectorSpec`: collects the `wit_loss` hazards and early-terminates exactly
when the bound is at most the loss. -/
def wit_query (dt : DTransformation ℚ) (b : ExtLoss ℚ) : QueryOutcome ℚ :=
  ⟨ExtLoss.le_val b (wit_loss dt), decide (dt.x = 0), wit_loss dt⟩

end Sparrow

namespace Sparrow

/-- Case characterization of `evaluate_sample`, used by the claim proofs:
the evaluator returns the primary classification in non-symmetric mode, and in
symmetric mode composes it with the mirror query under the residual bound. -/
theorem evaluate_sample_eq {α : Type} [LinearOrderedField α] (pi : α)
    (query : DTransformation α → ExtLoss α → QueryOutcome α)
    (ev : SeparationEvaluator α) (dt : DTransformation α)
    (ub : Option (SampleEval α)) :
    evaluate_sample pi query ev dt ub =
      (let ev' : SeparationEvaluator α := { ev with n_evals := ev.n_evals + 1 }
       let lb := loss_bound_of ub
       let q1 := query dt lb
       match ev.symmetric_axis_x with
       | none => ⟨classify q1, [⟨dt, lb, q1⟩], ev'⟩
       | some a =>
         if q1.early_term then ⟨SampleEval.Invalid, [⟨dt, lb, q1⟩], ev'⟩
         else
           let L1 := primary_loss q1
           let B2 := lb.sub L1
           if B2.nonpos then ⟨SampleEval.Collision L1, [⟨dt, lb, q1⟩], ev'⟩
           else
             let mdt := mirror_transformation pi dt a
             let q2 := query mdt B2
             ⟨(if q2.early_term then SampleEval.Invalid
               else if q2.is_empty then
                 (if L1 = 0 then SampleEval.Clear 0 else SampleEval.Collision L1)
               else SampleEval.Collision (L1 + q2.loss)),
              [⟨dt, lb, q1⟩, ⟨mdt, B2, q2⟩], ev'⟩) := by
  cases hax : ev.symmetric_axis_x with
  | none => simp [evaluate_sample, hax, classify]
  | some a =>
    cases h1 : (query dt (loss_bound_of ub)).early_term with
    | true => simp [evaluate_sample, hax, h1]
    | false =>
      cases h2 : (query dt (loss_bound_of ub)).is_empty with
      | true => simp [evaluate_sample, hax, h1, h2, primary_loss]
      | false => simp [evaluate_sample, hax, h1, h2, primary_loss]

/-- Claim C10: every call to `evaluate_sample`, whatever the transform, the
upper bound and the outcome (including `Invalid` and the early return on a
non-positive residual bound), increments the counter returned by `n_evals` by
exactly one. -/
theorem evaluate_sample_increments_n_evals {α : Type} [LinearOrderedField α]
    (pi : α) (query : DTransformation α → ExtLoss α → QueryOutcome α)
    (ev : SeparationEvaluator α) (dt : DTransformation α)
    (ub : Option (SampleEval α)) :
    (evaluate_sample pi query ev dt ub).evaluator.n_evals = ev.n_evals + 1 := by
  rw [evaluate_sample_eq]
  cases hax : ev.symmetric_axis_x with
  | none => rfl
  | some a =>
    simp only
    split
    · rfl
    · split <;> [rfl; rfl]

/-- Claim C5: the loss bound installed into the hazard collector for the
primary query is a function of the `upper_bound` argument alone:
`Some(Collision{loss})` yields that loss, `Some(Clear{..})` yields `0.0`, and
`None` or `Some(Invalid)` yields positive infinity. -/
theorem evaluate_sample_loss_bound {α : Type} [LinearOrderedField α]
    (pi : α) (query : DTransformation α → ExtLoss α → QueryOutcome α)
    (ev : SeparationEvaluator α) (dt : DTransformation α)
    (ub : Option (SampleEval α)) (l l' : α) :
    ((evaluate_sample pi query ev dt ub).queries.head?.map PerformedQuery.bound
      = some (loss_bound_of ub)) ∧
    loss_bound_of (some (SampleEval.Collision l)) = ExtLoss.fin l ∧
    loss_bound_of (some (SampleEval.Clear l')) = ExtLoss.fin (0 : α) ∧
    loss_bound_of (none : Option (SampleEval α)) = ExtLoss.inf ∧
    loss_bound_of (some (SampleEval.Invalid : SampleEval α)) = ExtLoss.inf := by
  refine ⟨?_, rfl, rfl, rfl, rfl⟩
  rw [evaluate_sample_eq]
  cases hax : ev.symmetric_axis_x with
  | none => rfl
  | some a =>
    simp only
    split
    · rfl
    · split <;> [rfl; rfl]

/-- Claim C4: the primary query is classified in order: `early_terminate` on
the transformed shape gives `Invalid`, otherwise an empty collector gives
`Clear{0}`, otherwise `Collision` with the collector loss; and with no
symmetry axis set, `evaluate_sample` returns exactly this primary
classification (after performing exactly the one primary query). -/
theorem evaluate_sample_primary_classification {α : Type} [LinearOrderedField α]
    (pi : α) (query : DTransformation α → ExtLoss α → QueryOutcome α)
    (ev : SeparationEvaluator α) (dt : DTransformation α)
    (ub : Option (SampleEval α))
    (hax : ev.symmetric_axis_x = none) :
    (evaluate_sample pi query ev dt ub).result
      = classify (query dt (loss_bound_of ub)) ∧
    classify (query dt (loss_bound_of ub))
      = (if (query dt (loss_bound_of ub)).early_term then SampleEval.Invalid
         else if (query dt (loss_bound_of ub)).is_empty then SampleEval.Clear 0
         else SampleEval.Collision (query dt (loss_bound_of ub)).loss) ∧
    (evaluate_sample pi query ev dt ub).queries
      = [⟨dt, loss_bound_of ub, query dt (loss_bound_of ub)⟩] := by
  rw [evaluate_sample_eq]
  simp [hax, classify]

/-- Witness for claim C4 at a concrete input: an evaluator with no symmetry
axis over `ℚ`, the zero transform and no upper bound. -/
theorem evaluate_sample_primary_classification_witness :
    ((⟨0, none⟩ : SeparationEvaluator ℚ).symmetric_axis_x = none) ∧
    (evaluate_sample (0 : ℚ) wit_query ⟨0, none⟩ ⟨0, 0, 0⟩ none).result
      = classify (wit_query ⟨0, 0, 0⟩ (loss_bound_of none)) :=
  ⟨rfl, (evaluate_sample_primary_classification 0 wit_query ⟨0, none⟩
      ⟨0, 0, 0⟩ none rfl).1⟩

/-- The concrete witness query satisfies the spec-modelled collector laws. -/
theorem wit_query_collectorSpec : CollectorSpec wit_query := by
  refine ⟨?_, ?_, ?_, ?_⟩ <;> intro dt b
  · dsimp [wit_query, wit_loss]
    split <;> norm_num
  · intro h
    dsimp [wit_query] at h ⊢
    rw [decide_eq_false_iff_not] at h
    dsimp [wit_loss]
    rw [if_neg h]
    norm_num
  · intro h
    dsimp [wit_query] at h ⊢
    rw [decide_eq_true_eq] at h
    dsimp [wit_loss]
    rw [if_pos h]
  · rfl

/-- Claim C3: in symmetric mode, when the primary result is not `Invalid` and
carries loss `L₁`, the mirror query is issued with the residual bound
`B₂ = loss_bound - L₁`; and whenever `B₂ ≤ 0` the evaluator returns
`Collision{L₁}` immediately, without performing the mirror CDE query. -/
theorem evaluate_sample_residual_bound {α : Type} [LinearOrderedField α]
    (pi : α) (query : DTransformation α → ExtLoss α → QueryOutcome α)
    (ev : SeparationEvaluator α) (dt : DTransformation α)
    (ub : Option (SampleEval α)) (a : α)
    (hax : ev.symmetric_axis_x = some a)
    (hne : (query dt (loss_bound_of ub)).early_term = false) :
    (((loss_bound_of ub).sub (primary_loss (query dt (loss_bound_of ub)))).nonpos = true →
      (evaluate_sample pi query ev dt ub).result
        = SampleEval.Collision (primary_loss (query dt (loss_bound_of ub))) ∧
      (evaluate_sample pi query ev dt ub).queries
        = [⟨dt, loss_bound_of ub, query dt (loss_bound_of ub)⟩]) ∧
    (((loss_bound_of ub).sub (primary_loss (query dt (loss_bound_of ub)))).nonpos = false →
      (evaluate_sample pi query ev dt ub).queries
        = [⟨dt, loss_bound_of ub, query dt (loss_bound_of ub)⟩,
           ⟨mirror_transformation pi dt a,
            (loss_bound_of ub).sub (primary_loss (query dt (loss_bound_of ub))),
            query (mirror_transformation pi dt a)
              ((loss_bound_of ub).sub (primary_loss (query dt (loss_bound_of ub))))⟩]) := by
  constructor <;> intro hb <;> rw [evaluate_sample_eq] <;> simp [hax, hne, hb]

/-- Witness for claim C3 at a concrete input: symmetric evaluator over `ℚ`
with axis `1`, clear primary at the zero transform, infinite bound, so the
mirror query is performed under the residual bound. -/
theorem evaluate_sample_residual_bound_witness :
    ((⟨0, some 1⟩ : SeparationEvaluator ℚ).symmetric_axis_x = some 1) ∧
    (wit_query ⟨0, 0, 0⟩ (loss_bound_of none)).early_term = false ∧
    (evaluate_sample (0 : ℚ) wit_query ⟨0, some 1⟩ ⟨0, 0, 0⟩ none).queries
      = [⟨⟨0, 0, 0⟩, loss_bound_of none, wit_query ⟨0, 0, 0⟩ (loss_bound_of none)⟩,
         ⟨mirror_transformation 0 ⟨0, 0, 0⟩ 1,
          (loss_bound_of none).sub
            (primary_loss (wit_query ⟨0, 0, 0⟩ (loss_bound_of none))),
          wit_query (mirror_transformation 0 ⟨0, 0, 0⟩ 1)
            ((loss_bound_of none).sub
              (primary_loss (wit_query ⟨0, 0, 0⟩ (loss_bound_of none))))⟩] :=
  ⟨rfl, by decide,
   (evaluate_sample_residual_bound 0 wit_query ⟨0, some 1⟩ ⟨0, 0, 0⟩ none 1 rfl
      (by decide)).2 (by decide)⟩

/-- Claim C1: in symmetric mode, `evaluate_sample` composes the primary
result `R₁` and the mirror result exactly per the spec table: an `Invalid`
primary gives `Invalid` without a mirror query; an early-terminated mirror
query gives `Invalid`; a hazard-free mirror gives back `R₁` (`Clear{0}` for a
clear primary, `Collision{L₁}` for a colliding one); a mirror collecting
hazards with loss `L₂` gives `Collision{L₁ + L₂}`, with `L₁ = 0` when `R₁`
was `Clear`. -/
theorem evaluate_sample_symmetric_composition {α : Type} [LinearOrderedField α]
    (pi : α) (query : DTransformation α → ExtLoss α → QueryOutcome α)
    (ev : SeparationEvaluator α) (dt : DTransformation α)
    (ub : Option (SampleEval α)) (a : α)
    (lb : ExtLoss α) (q1 q2 : QueryOutcome α) (R1 : SampleEval α)
    (hax : ev.symmetric_axis_x = some a)
    (hcs : CollectorSpec query)
    (hlb : lb = loss_bound_of ub)
    (hq1 : q1 = query dt lb)
    (hR1 : R1 = classify q1)
    (hq2 : q2 = query (mirror_transformation pi dt a) (lb.sub (primary_loss q1))) :
    (R1 = SampleEval.Invalid →
      (evaluate_sample pi query ev dt ub).result = SampleEval.Invalid ∧
      (evaluate_sample pi query ev dt ub).queries = [⟨dt, lb, q1⟩]) ∧
    (R1 ≠ SampleEval.Invalid → (lb.sub (primary_loss q1)).nonpos = false →
      ((q2.early_term = true →
         (evaluate_sample pi query ev dt ub).result = SampleEval.Invalid) ∧
       (q2.early_term = false → q2.is_empty = true →
         (evaluate_sample pi query ev dt ub).result = R1) ∧
       (q2.early_term = false → q2.is_empty = false →
         (evaluate_sample pi query ev dt ub).result
           = SampleEval.Collision (primary_loss q1 + q2.loss) ∧
         (R1 = SampleEval.Clear 0 → primary_loss q1 = 0)))) := by
  subst hlb hq1 hR1 hq2
  have hinv : classify (query dt (loss_bound_of ub)) = SampleEval.Invalid ↔
      (query dt (loss_bound_of ub)).early_term = true := by
    cases he : (query dt (loss_bound_of ub)).early_term
    · simp only [classify, he, Bool.false_eq_true, if_false]
      split <;> simp
    · simp [classify, he]
  constructor
  · intro hI
    have he := hinv.mp hI
    rw [evaluate_sample_eq]
    simp [hax, he]
  · intro hI hb
    have he : (query dt (loss_bound_of ub)).early_term = false := by
      cases h : (query dt (loss_bound_of ub)).early_term
      · rfl
      · exact absurd (hinv.mpr h) hI
    refine ⟨?_, ?_, ?_⟩
    · intro h2e
      rw [evaluate_sample_eq]
      simp [hax, he, hb, h2e]
    · intro h2e h2emp
      rw [evaluate_sample_eq]
      simp only [hax, he, hb, h2e, h2emp]
      cases hq1e : (query dt (loss_bound_of ub)).is_empty
      · have hpos := hcs.loss_pos dt (loss_bound_of ub) hq1e
        simp [primary_loss, classify, hq1e, he, ne_of_gt hpos]
      · simp [primary_loss, classify, hq1e, he]
    · intro h2e h2emp
      constructor
      · rw [evaluate_sample_eq]
        simp [hax, he, hb, h2e, h2emp]
      · intro hclear
        cases hq1e : (query dt (loss_bound_of ub)).is_empty
        · exfalso
          rw [classify, if_neg (by simp [he]), if_neg (by simp [hq1e])] at hclear
          exact SampleEval.noConfusion hclear
        · simp [primary_loss, hq1e]

/-- Witness for claim C1 at a concrete input: symmetric evaluator over `ℚ`
with axis `1`, clear primary at the zero transform, colliding mirror position,
infinite bound; the composed result is `Collision{0 + L₂}`. -/
theorem evaluate_sample_symmetric_composition_witness :
    ((⟨0, some 1⟩ : SeparationEvaluator ℚ).symmetric_axis_x = some 1) ∧
    (evaluate_sample (0 : ℚ) wit_query ⟨0, some 1⟩ ⟨0, 0, 0⟩ none).result
      = SampleEval.Collision
          (primary_loss (wit_query ⟨0, 0, 0⟩ (loss_bound_of none))
            + (wit_query (mirror_transformation 0 ⟨0, 0, 0⟩ 1)
                ((loss_bound_of none).sub
                  (primary_loss (wit_query ⟨0, 0, 0⟩ (loss_bound_of none))))).loss) :=
  ⟨rfl,
   ((evaluate_sample_symmetric_composition (0 : ℚ) wit_query ⟨0, some 1⟩ ⟨0, 0, 0⟩
        none 1 (loss_bound_of none) (wit_query ⟨0, 0, 0⟩ (loss_bound_of none))
        (wit_query (mirror_transformation 0 ⟨0, 0, 0⟩ 1)
          ((loss_bound_of none).sub
            (primary_loss (wit_query ⟨0, 0, 0⟩ (loss_bound_of none)))))
        (classify (wit_query ⟨0, 0, 0⟩ (loss_bound_of none)))
        rfl wit_query_collectorSpec rfl rfl rfl rfl).2
      (by decide) (by decide)).2.2 (by decide)
      (by norm_num [wit_query, mirror_transformation]) |>.1⟩

/-- Under the collector laws, the loss `L₁` carried by a non-`Invalid`
primary result is nonnegative. -/
theorem primary_loss_nonneg {α : Type} [LinearOrderedField α]
    (query : DTransformation α → ExtLoss α → QueryOutcome α)
    (hcs : CollectorSpec query) (dt : DTransformation α) (b : ExtLoss α) :
    0 ≤ primary_loss (query dt b) := by
  unfold primary_loss
  split
  · exact le_refl 0
  · exact hcs.loss_nonneg dt b

/-- Under the collector laws, a clear primary with a non-positive residual
bound is impossible: the primary query would already have early-terminated. -/
theorem nonpos_residual_early {α : Type} [LinearOrderedField α]
    (query : DTransformation α → ExtLoss α → QueryOutcome α)
    (dt : DTransformation α) (lb : ExtLoss α) (hcs : CollectorSpec query)
    (hemp : (query dt lb).is_empty = true)
    (hb : (lb.sub (primary_loss (query dt lb))).nonpos = true) :
    (query dt lb).early_term = true := by
  have hL : primary_loss (query dt lb) = 0 := by simp [primary_loss, hemp]
  rw [hL] at hb
  cases lb with
  | inf => simp [ExtLoss.sub, ExtLoss.nonpos] at hb
  | fin c =>
    have hc : c - 0 ≤ 0 := by simpa [ExtLoss.sub, ExtLoss.nonpos] using hb
    have hcl : c ≤ (query dt (ExtLoss.fin c)).loss :=
      le_trans (by linarith) (hcs.loss_nonneg dt _)
    rw [hcs.early_iff]
    simp [ExtLoss.le_val, hcl]

/-- Claim C2: for every evaluation (symmetric or not, any upper bound), the
returned loss is nonnegative; the result is `Clear` exactly when its loss is
zero and no hazards were collected in any performed query; and every
`Collision` result has strictly positive loss and at least one performed query
that collected a hazard. -/
theorem evaluate_sample_value_law {α : Type} [LinearOrderedField α]
    (pi : α) (query : DTransformation α → ExtLoss α → QueryOutcome α)
    (ev : SeparationEvaluator α) (dt : DTransformation α)
    (ub : Option (SampleEval α))
    (hcs : CollectorSpec query) :
    (∀ l : α,
      ((evaluate_sample pi query ev dt ub).result = SampleEval.Clear l ∨
       (evaluate_sample pi query ev dt ub).result = SampleEval.Collision l) →
      0 ≤ l ∧
      ((evaluate_sample pi query ev dt ub).result = SampleEval.Clear l ↔
        (l = 0 ∧ ∀ pq ∈ (evaluate_sample pi query ev dt ub).queries,
          pq.outcome.is_empty = true))) ∧
    (∀ l : α,
      (evaluate_sample pi query ev dt ub).result = SampleEval.Collision l →
      0 < l ∧ ∃ pq ∈ (evaluate_sample pi query ev dt ub).queries,
        pq.outcome.is_empty = false) := by
  have hn1 := hcs.loss_nonneg dt (loss_bound_of ub)
  rw [evaluate_sample_eq]
  cases hax : ev.symmetric_axis_x with
  | none =>
    simp only [hax]
    cases he : (query dt (loss_bound_of ub)).early_term with
    | true => simp [classify, he]
    | false =>
      cases hemp : (query dt (loss_bound_of ub)).is_empty with
      | true => simp [classify, he, hemp]
      | false =>
        have hp1 := hcs.loss_pos dt (loss_bound_of ub) hemp
        constructor
        · intro l hl
          simp only [classify, he, hemp, Bool.false_eq_true, if_false] at hl ⊢
          rcases hl with hl | hl
          · exact absurd hl (by simp)
          · rw [SampleEval.Collision.injEq] at hl
            subst hl
            refine ⟨hp1.le, ?_⟩
            simp [hemp]
        · intro l hl
          simp only [classify, he, hemp, Bool.false_eq_true, if_false] at hl ⊢
          rw [SampleEval.Collision.injEq] at hl
          subst hl
          exact ⟨hp1, by simp [hemp]⟩
  | some a =>
    simp only [hax]
    cases he : (query dt (loss_bound_of ub)).early_term with
    | true => simp [he]
    | false =>
      simp only [he, Bool.false_eq_true, if_false]
      cases hb : ((loss_bound_of ub).sub
          (primary_loss (query dt (loss_bound_of ub)))).nonpos with
      | true =>
        simp only [hb, if_true]
        cases hemp : (query dt (loss_bound_of ub)).is_empty with
        | true =>
          exact absurd (nonpos_residual_early query dt (loss_bound_of ub) hcs hemp hb)
            (by simp [he])
        | false =>
          have hp1 := hcs.loss_pos dt (loss_bound_of ub) hemp
          constructor
          · intro l hl
            rcases hl with hl | hl
            · exact absurd hl (by simp)
            · rw [SampleEval.Collision.injEq] at hl
              subst hl
              refine ⟨(by simpa [primary_loss, hemp] using hp1.le), ?_⟩
              simp [hemp]
          · intro l hl
            rw [SampleEval.Collision.injEq] at hl
            subst hl
            exact ⟨by simpa [primary_loss, hemp] using hp1, by simp [hemp]⟩
      | false =>
        simp only [hb, Bool.false_eq_true, if_false]
        cases h2e : (query (mirror_transformation pi dt a)
            ((loss_bound_of ub).sub
              (primary_loss (query dt (loss_bound_of ub))))).early_term with
        | true => simp [h2e]
        | false =>
          simp only [h2e, Bool.false_eq_true, if_false]
          cases h2emp : (query (mirror_transformation pi dt a)
              ((loss_bound_of ub).sub
                (primary_loss (query dt (loss_bound_of ub))))).is_empty with
          | true =>
            simp only [h2emp, if_true]
            cases hemp : (query dt (loss_bound_of ub)).is_empty with
            | true =>
              have hL : primary_loss (query dt (loss_bound_of ub)) = 0 := by
                simp [primary_loss, hemp]
              rw [hL] at h2emp
              simp [hL, hemp, h2emp]
            | false =>
              have hp1 := hcs.loss_pos dt (loss_bound_of ub) hemp
              have hL : primary_loss (query dt (loss_bound_of ub))
                  = (query dt (loss_bound_of ub)).loss := by
                simp [primary_loss, hemp]
              rw [hL, if_neg (by exact fun h => absurd (h ▸ hp1) (lt_irrefl 0))]
              constructor
              · intro l hl
                rcases hl with hl | hl
                · exact absurd hl (by simp)
                · rw [SampleEval.Collision.injEq] at hl
                  subst hl
                  exact ⟨hp1.le, by simp [hemp]⟩
              · intro l hl
                rw [SampleEval.Collision.injEq] at hl
                subst hl
                exact ⟨hp1, by simp [hemp]⟩
          | false =>
            simp only [h2emp, Bool.false_eq_true, if_false]
            have hp2 := hcs.loss_pos (mirror_transformation pi dt a)
              ((loss_bound_of ub).sub
                (primary_loss (query dt (loss_bound_of ub)))) h2emp
            have hLn := primary_loss_nonneg query hcs dt (loss_bound_of ub)
            have hsum : 0 < primary_loss (query dt (loss_bound_of ub))
                + (query (mirror_transformation pi dt a)
                    ((loss_bound_of ub).sub
                      (primary_loss (query dt (loss_bound_of ub))))).loss :=
              add_pos_of_nonneg_of_pos hLn hp2
            constructor
            · intro l hl
              rcases hl with hl | hl
              · exact absurd hl (by simp)
              · rw [SampleEval.Collision.injEq] at hl
                subst hl
                refine ⟨hsum.le, ?_⟩
                simp [h2emp]
            · intro l hl
              rw [SampleEval.Collision.injEq] at hl
              subst hl
              exact ⟨hsum, by simp [h2emp]⟩

/-- Witness for claim C2 at a concrete input: symmetric evaluator over `ℚ`
with axis `1`, zero transform, no upper bound; the composed result is a
`Collision` whose loss is positive and backed by a collected hazard. -/
theorem evaluate_sample_value_law_witness :
    0 < (1 : ℚ) ∧
    ((evaluate_sample (0 : ℚ) wit_query ⟨0, some 1⟩ ⟨0, 0, 0⟩ none).result
        = SampleEval.Collision 1 →
      0 < (1 : ℚ) ∧ ∃ pq ∈ (evaluate_sample (0 : ℚ) wit_query ⟨0, some 1⟩
          ⟨0, 0, 0⟩ none).queries, pq.outcome.is_empty = false) :=
  ⟨by norm_num,
   (evaluate_sample_value_law (0 : ℚ) wit_query ⟨0, some 1⟩ ⟨0, 0, 0⟩ none
      wit_query_collectorSpec).2 1⟩

/-- Claim C8: in symmetric mode the axis equals half the strip width of the
starting problem (whether LBF-constructed or restored from a warm start), and
the same axis value is passed unchanged to both the exploration separator and
the compression separator; in non-symmetric mode no axis is passed to
either. -/
theorem optimize_with_symmetric_axis {α : Type} [LinearOrderedField α]
    {σ : Type}
    (construct_lbf : Unit → SPProblem α) (restore : σ → SPProblem α)
    (explore : SeparatorArgs α → SPProblem α)
    (initial_solution : Option σ) (symmetric : Bool) :
    (optimize_with_symmetric construct_lbf restore explore initial_solution
        symmetric).1.prob
      = (match initial_solution with
         | none => construct_lbf ()
         | some init_sol => restore init_sol) ∧
    (optimize_with_symmetric construct_lbf restore explore initial_solution
        symmetric).1.axis
      = (if symmetric then
           some ((optimize_with_symmetric construct_lbf restore explore
              initial_solution symmetric).1.prob.strip_width / 2)
         else none) ∧
    (optimize_with_symmetric construct_lbf restore explore initial_solution
        symmetric).2.axis
      = (optimize_with_symmetric construct_lbf restore explore initial_solution
          symmetric).1.axis := by
  refine ⟨rfl, ?_, rfl⟩
  cases symmetric <;> rfl

/-- Claim C9: `read_spp_input` first tries to parse a full
`{instance, solution}` output, returning the instance with the solution as a
warm start on success; only if that fails does it try a plain instance,
returning no warm start; an unreadable file or two failed parses yield the
corresponding contextual error; and the evaluator core is total into the
three-valued `SampleEval`, so no such error arises there. -/
theorem read_spp_input_spec {ι σ π : Type}
    (read_to_string : π → Option String)
    (parse_output : String → Option (ExtSPOutput ι σ))
    (parse_instance : String → Option ι) (path : π) :
    (∀ s out, read_to_string path = some s → parse_output s = some out →
      read_spp_input read_to_string parse_output parse_instance path
        = Except.ok (out.instance_, some out.solution)) ∧
    (∀ s i, read_to_string path = some s → parse_output s = none →
      parse_instance s = some i →
      read_spp_input read_to_string parse_output parse_instance path
        = Except.ok (i, none)) ∧
    (read_to_string path = none →
      read_spp_input read_to_string parse_output parse_instance path
        = Except.error ReadSppError.couldNotReadInputFile) ∧
    (∀ s, read_to_string path = some s → parse_output s = none →
      parse_instance s = none →
      read_spp_input read_to_string parse_output parse_instance path
        = Except.error ReadSppError.couldNotParseInstance) ∧
    (∀ (pi : ℚ) (query : DTransformation ℚ → ExtLoss ℚ → QueryOutcome ℚ)
       (ev : SeparationEvaluator ℚ) (dt : DTransformation ℚ)
       (ub : Option (SampleEval ℚ)),
      (evaluate_sample pi query ev dt ub).result = SampleEval.Invalid ∨
      ∃ l, (evaluate_sample pi query ev dt ub).result = SampleEval.Clear l ∨
           (evaluate_sample pi query ev dt ub).result = SampleEval.Collision l) := by
  refine ⟨?_, ?_, ?_, ?_, ?_⟩
  · intro s out hs hout
    simp [read_spp_input, hs, hout]
  · intro s i hs hout hi
    simp [read_spp_input, hs, hout, hi]
  · intro hs
    simp [read_spp_input, hs]
  · intro s hs hout hi
    simp [read_spp_input, hs, hout, hi]
  · intro pi query ev dt ub
    rw [evaluate_sample_eq]
    cases hax : ev.symmetric_axis_x with
    | none =>
      simp only [hax]
      unfold classify
      split
      · exact Or.inl rfl
      · split
        · exact Or.inr ⟨0, Or.inl rfl⟩
        · exact Or.inr ⟨_, Or.inr rfl⟩
    | some a =>
      simp only [hax]
      split
      · exact Or.inl rfl
      · split
        · exact Or.inr ⟨_, Or.inr rfl⟩
        · split
          · exact Or.inl rfl
          · split
            · split
              · exact Or.inr ⟨0, Or.inl rfl⟩
              · exact Or.inr ⟨_, Or.inr rfl⟩
            · exact Or.inr ⟨_, Or.inr rfl⟩

/-- Witness for claim C9 at concrete inputs: a readable file whose contents
parse as a full output is returned as an instance plus warm-start solution. -/
theorem read_spp_input_spec_witness :
    (fun _ : ℕ => some "x") 0 = some "x" ∧
    (fun _ : String => some (⟨3, 7⟩ : ExtSPOutput ℕ ℕ)) "x" = some ⟨3, 7⟩ ∧
    read_spp_input (fun _ : ℕ => some "x")
      (fun _ => some (⟨3, 7⟩ : ExtSPOutput ℕ ℕ)) (fun _ => none) 0
      = Except.ok (3, some 7) :=
  ⟨rfl, rfl,
   (read_spp_input_spec (fun _ : ℕ => some "x")
      (fun _ => some (⟨3, 7⟩ : ExtSPOutput ℕ ℕ)) (fun _ => none) 0).1 "x"
      ⟨3, 7⟩ rfl rfl⟩

/-- Claim C6: mirror is involutive: `mirror(mirror(T, a), a) = T` for every
transform `T` and axis position `a`, the rotation returning to its original
value via `π - (π - r) = r`. -/
theorem mirror_transformation_involutive (dt : DTransformation ℝ) (a : ℝ) :
    mirror_transformation Real.pi (mirror_transformation Real.pi dt a) a = dt := by
  cases dt with
  | mk r x y =>
    simp only [mirror_transformation, DTransformation.mk.injEq]
    refine ⟨by ring, by ring, trivial⟩

/-- Claim C7: `mirror(T, a)` has x-coordinate `2·a - T.x` (equivalently
`mirror(T, a).x + T.x = 2·a`), unchanged y-coordinate, and rotation
`π - T.r`; in particular mirroring `T = ((1, 2), r = 0)` about `axis_x = 5`
yields `((9, 2), r = π)`. -/
theorem mirror_transformation_formula (dt : DTransformation ℝ) (a : ℝ) :
    (mirror_transformation Real.pi dt a).x = 2 * a - dt.x ∧
    (mirror_transformation Real.pi dt a).x + dt.x = 2 * a ∧
    (mirror_transformation Real.pi dt a).y = dt.y ∧
    (mirror_transformation Real.pi dt a).rotation = Real.pi - dt.rotation ∧
    mirror_transformation Real.pi ⟨0, 1, 2⟩ 5 = ⟨Real.pi, 9, 2⟩ := by
  refine ⟨rfl, by simp only [mirror_transformation]; ring, rfl, rfl, ?_⟩
  simp only [mirror_transformation, DTransformation.mk.injEq]
  norm_num

end Sparrow
